import Mathlib

/-!
Verification development for the PrepMate-AI interview backend.

This file shallowly embeds the interview core of the repository
(`backend/core/interview_manager.py`, `backend/core/utils.py`, and the
parsing boundary of `backend/chains/feedback_chain.py`) and proves or
refutes the behavioural claims of the specification against it.

Modelling conventions:
* Python floats are modelled as rationals (`ℚ`); Python `round(x, 2)`
  (round half to even) is modelled by `pyRound2`.
* `datetime.now()` is modelled by a logical clock carried in the manager
  state; each mutating operation uses the current tick for its timestamps
  and advances the clock by one.
* The two external LLM collaborators (`QuestionChain.generate_question`,
  `FeedbackChain.generate_feedback`) are nondeterministic at the boundary;
  operations therefore take the collaborator's reply as an explicit oracle
  argument.  Collaborator calls are modelled as succeeding; a raising
  collaborator re-raises out of the manager (spec §7) and is outside the
  transition system modelled here.
* Python exceptions raised by the manager itself (`ValueError` for a
  missing session / question) are modelled with `Except` over the error
  type `IErr`, one constructor per distinct raise site.
-/

/-- State of an interview session: `"not_started"`, `"in_progress"`,
`"completed"` in `InterviewSession.__init__` / `mark_complete`. -/
inductive SState where
  | not_started
  | in_progress
  | completed
deriving Repr, DecidableEq

/-- One entry of `session.questions`: the dict
`{"id": ..., "question": ..., "topic": ...}` built by `add_question`. -/
structure Question where
  id : Nat
  question : String
  topic : String
deriving Repr, DecidableEq

/-- One entry of `session.answers`: the dict built by `add_answer`. -/
structure Answer where
  question_id : Nat
  answer : String
  feedback : String
  score : ℚ
  timestamp : Nat
deriving Repr, DecidableEq

/-- Embeds `InterviewSession.__init__` (interview_manager.py lines 16-28). -/
structure InterviewSession where
  session_id : String
  role : String
  difficulty : String
  topics : List String
  questions : List Question
  answers : List Answer
  current_question_id : Nat
  current_question_index : Nat
  scores : List ℚ
  state : SState
  created_at : Nat
  completed_at : Option Nat
deriving Repr, DecidableEq

/-- The topic expression of `add_question`:
`self.topics[question_id % len(self.topics)] if self.topics else "general"`. -/
def topicSpec (topics : List String) (i : Nat) : String :=
  if topics.isEmpty then "general" else topics.getD (i % topics.length) "general"

/-- Embeds `InterviewSession.add_question` (lines 30-39): appends
`{"id": qid, "question": q, "topic": ...}` and bumps the id counter;
returns the updated session together with the assigned question id. -/
def add_question (s : InterviewSession) (q : String) : InterviewSession × Nat :=
  let question_id := s.current_question_id
  let topic := if s.topics.isEmpty then "general"
               else s.topics.getD (question_id % s.topics.length) "general"
  ({ s with
      questions := s.questions ++ [{ id := question_id, question := q, topic := topic }],
      current_question_id := question_id + 1 },
   question_id)

/-- Embeds `InterviewSession.add_answer` (lines 41-50): appends the answer record
and its score (`ts` models the `datetime.now().isoformat()` timestamp). -/
def add_answer (s : InterviewSession) (question_id : Nat) (answer feedback : String)
    (score : ℚ) (ts : Nat) : InterviewSession :=
  { s with
      answers := s.answers ++
        [{ question_id := question_id, answer := answer, feedback := feedback,
           score := score, timestamp := ts }],
      scores := s.scores ++ [score] }

/-- Embeds `InterviewSession.get_current_question` (lines 52-56). -/
def get_current_question (s : InterviewSession) : Option Question :=
  s.questions.get? s.current_question_index

/-- Embeds `InterviewSession.is_complete` (lines 66-68):
`len(self.answers) >= settings.MAX_QUESTIONS`. -/
def is_complete (s : InterviewSession) (maxQuestions : Nat) : Bool :=
  decide (maxQuestions ≤ s.answers.length)

/-- Embeds `InterviewSession.mark_complete` (lines 70-73). -/
def mark_complete (s : InterviewSession) (ts : Nat) : InterviewSession :=
  { s with state := SState.completed, completed_at := some ts }

/-- The progress dict of `InterviewSession.get_progress` (lines 75-83).
`remaining_questions` is an integer (it goes negative once more than
`MAX_QUESTIONS` answers exist); `progress_percentage` is a float. -/
structure Progress where
  total_questions : Nat
  answered_questions : Nat
  remaining_questions : ℤ
  current_question_number : Nat
  progress_percentage : ℚ
deriving Repr, DecidableEq

/-- Embeds `InterviewSession.get_progress` (lines 75-83). -/
def get_progress (s : InterviewSession) (maxQuestions : Nat) : Progress :=
  { total_questions := maxQuestions,
    answered_questions := s.answers.length,
    remaining_questions := (maxQuestions : ℤ) - (s.answers.length : ℤ),
    current_question_number := s.answers.length + 1,
    progress_percentage := ((s.answers.length : ℚ) / (maxQuestions : ℚ)) * 100 }

/-- Python `str.lower()`, modelled over the character list. -/
def pyToLower (s : String) : String :=
  ⟨s.data.map Char.toLower⟩

/-- Python `str.strip()` (no argument): drop leading and trailing
whitespace, modelled over the character list. -/
def pyStrip (s : String) : String :=
  ⟨((s.data.dropWhile Char.isWhitespace).reverse.dropWhile Char.isWhitespace).reverse⟩

/-- Python `str.startswith(pre)`, modelled over the character list. -/
def pyStartsWith (s pre : String) : Bool :=
  pre.data.isPrefixOf s.data

/-- Embeds `utils.validate_difficulty` (utils.py lines 37-48):
`difficulty.lower() in ["easy", "medium", "hard"]`. -/
def validate_difficulty (difficulty : String) : Bool :=
  (["easy", "medium", "hard"] : List String).contains (pyToLower difficulty)

/-- Embeds `utils.validate_role` (utils.py lines 51-61):
`bool(role and len(role.strip()) > 0)`. -/
def validate_role (role : String) : Bool :=
  decide (role ≠ "" ∧ 0 < (pyStrip role).length)

/-- Python `round` to an integer: round half to even (banker's rounding). -/
def roundHalfEven (x : ℚ) : ℤ :=
  let n := ⌊x⌋
  let r := x - (n : ℚ)
  if r < 1 / 2 then n
  else if 1 / 2 < r then n + 1
  else if n % 2 = 0 then n else n + 1

/-- Python `round(x, 2)`. -/
def pyRound2 (x : ℚ) : ℚ :=
  (roundHalfEven (x * 100) : ℚ) / 100

/-- Embeds `utils.calculate_average_score` (utils.py lines 81-93):
`0.0` for an empty list, else `round(sum/len, 2)`. -/
def calculate_average_score (scores : List ℚ) : ℚ :=
  if scores.isEmpty then 0 else pyRound2 (scores.sum / (scores.length : ℚ))

/-- The `performance_level` thresholds of `generate_summary`
(interview_manager.py lines 310-317). -/
def performance_level_of (avg : ℚ) : String :=
  if 8 ≤ avg then "Excellent"
  else if 6 ≤ avg then "Good"
  else if 4 ≤ avg then "Fair"
  else "Needs Improvement"

/-- The two distinct `ValueError` raise sites of the manager, modelled as a
typed error: `"Session ... not found"` and `"Question ... not found"`. -/
inductive IErr where
  | sessionNotFound (session_id : String)
  | questionNotFound (question_id : Nat)
deriving Repr, DecidableEq

/-- Embeds the manager state: `InterviewManager.__init__` keeps
`self.sessions: Dict[str, ...]`; the
dict is modelled as an association list with unique-key update semantics.
`clock` models `datetime.now()`; `maxQuestions` is `settings.MAX_QUESTIONS`
(read-only configuration, default 10). -/
structure ManagerState where
  sessions : List (String × InterviewSession)
  clock : Nat
  maxQuestions : Nat
deriving Repr, DecidableEq

/-- Dict lookup `self.sessions[sid]` / containment `sid in self.sessions`. -/
def storeGet (l : List (String × InterviewSession)) (sid : String) :
    Option InterviewSession :=
  match l with
  | [] => none
  | (k, v) :: rest => if k = sid then some v else storeGet rest sid

/-- Dict assignment `self.sessions[sid] = s` (overwrite or append). -/
def storeSet (l : List (String × InterviewSession)) (sid : String)
    (s : InterviewSession) : List (String × InterviewSession) :=
  match l with
  | [] => [(sid, s)]
  | (k, v) :: rest =>
    if k = sid then (k, s) :: rest else (k, v) :: storeSet rest sid s

/-- Dict deletion `del self.sessions[sid]`. -/
def storeDel (l : List (String × InterviewSession)) (sid : String) :
    List (String × InterviewSession) :=
  match l with
  | [] => []
  | (k, v) :: rest =>
    if k = sid then storeDel rest sid else (k, v) :: storeDel rest sid

/-- Return value of `start_interview`. -/
structure StartResult where
  session_id : String
  question : String
  question_id : Nat
  progress : Progress
deriving Repr, DecidableEq

/-- Embeds `InterviewManager.start_interview` (lines 95-138).  `sid` is the oracle
value of `generate_session_id()` and `qText` the question produced by the
external `QuestionChain.generate_question` collaborator.  No validation of
`role` / `difficulty` is performed by the source.  The session is stored,
moved to `in_progress`, and the first question is appended. -/
def start_interview (m : ManagerState) (sid role difficulty : String)
    (topics : List String) (qText : String) : ManagerState × StartResult :=
  let t := m.clock
  let s0 : InterviewSession :=
    { session_id := sid, role := role, difficulty := difficulty, topics := topics,
      questions := [], answers := [], current_question_id := 0,
      current_question_index := 0, scores := [], state := SState.not_started,
      created_at := t, completed_at := none }
  let s1 := { s0 with state := SState.in_progress }
  let qr := add_question s1 qText
  ({ m with sessions := storeSet m.sessions sid qr.1, clock := t + 1 },
   { session_id := sid, question := qText, question_id := qr.2,
     progress := get_progress qr.1 m.maxQuestions })

/-- Return value of `next_question` (the dict with `next_question`,
`next_question_id`, `topic`). -/
structure NextResult where
  next_question : String
  next_question_id : Nat
  topic : String
deriving Repr, DecidableEq

/-- Embeds `InterviewManager.next_question` (lines 226-268).  `qText` is the oracle
reply of the question collaborator (which is called with the cumulative
`previous_questions` list).  Advances the cursor, computes the next topic as
`topics[len(answers) % len(topics)]` (or `"general"`), appends the new
question. -/
def next_question_op (m : ManagerState) (sid : String) (qText : String) :
    ManagerState × Except IErr NextResult :=
  match storeGet m.sessions sid with
  | none => (m, Except.error (IErr.sessionNotFound sid))
  | some session =>
    let s1 := { session with
                  current_question_index := session.current_question_index + 1 }
    let next_topic := if s1.topics.isEmpty then "general"
                      else s1.topics.getD (s1.answers.length % s1.topics.length)
                             "general"
    let qr := add_question s1 qText
    ({ m with sessions := storeSet m.sessions sid qr.1, clock := m.clock + 1 },
     Except.ok { next_question := qText, next_question_id := qr.2,
                 topic := next_topic })

/-- The `{score, feedback}` dict the feedback collaborator hands back to the
manager. -/
structure FeedbackResult where
  score : ℚ
  feedback : String
deriving Repr, DecidableEq

/-- Return value of `submit_answer`: always `{feedback, score, is_complete,
progress}`; the `next_question` / `next_question_id` / `topic` keys are
merged in (`result.update`) only when the interview is not complete, hence
the `Option` fields. -/
structure SubmitResult where
  feedback : String
  score : ℚ
  is_complete : Bool
  progress : Progress
  next_question : Option String
  next_question_id : Option Nat
  next_topic : Option String
deriving Repr, DecidableEq

/-- Embeds `InterviewManager.submit_answer` (lines 157-224).  `fb` is the oracle
reply of the feedback collaborator, `nextQText` the oracle reply of the
question collaborator used when a follow-up question is generated.
Looks the question up by id (first match, the `next(...)` generator),
records the answer, checks completion (`len(answers) >= MAX_QUESTIONS`),
and either marks the session complete or generates the next question via
`next_question`.  Note: no session-state check is performed. -/
def submit_answer (m : ManagerState) (sid : String) (question_id : Nat)
    (answer : String) (fb : FeedbackResult) (nextQText : String) :
    ManagerState × Except IErr SubmitResult :=
  match storeGet m.sessions sid with
  | none => (m, Except.error (IErr.sessionNotFound sid))
  | some session =>
    match session.questions.find? (fun q => q.id == question_id) with
    | none => (m, Except.error (IErr.questionNotFound question_id))
    | some _question_data =>
      let t := m.clock
      let s1 := add_answer session question_id answer fb.feedback fb.score t
      if is_complete s1 m.maxQuestions then
        let s2 := mark_complete s1 t
        ({ m with sessions := storeSet m.sessions sid s2, clock := t + 1 },
         Except.ok { feedback := fb.feedback, score := fb.score,
                     is_complete := true,
                     progress := get_progress s1 m.maxQuestions,
                     next_question := none, next_question_id := none,
                     next_topic := none })
      else
        let m1 := { m with sessions := storeSet m.sessions sid s1 }
        match next_question_op m1 sid nextQText with
        | (m2, Except.ok nres) =>
          (m2, Except.ok { feedback := fb.feedback, score := fb.score,
                           is_complete := false,
                           progress := get_progress s1 m.maxQuestions,
                           next_question := some nres.next_question,
                           next_question_id := some nres.next_question_id,
                           next_topic := some nres.topic })
        | (m2, Except.error e) => (m2, Except.error e)

/-- Embeds `InterviewManager.delete_session` (lines 396-410). -/
def delete_session (m : ManagerState) (sid : String) : ManagerState × Bool :=
  if (storeGet m.sessions sid).isSome then
    ({ m with sessions := storeDel m.sessions sid }, true)
  else (m, false)

/-- One step of the `topic_scores` grouping loop of `generate_summary`
(lines 319-326): append `score` to the bucket of `topic`, creating the
bucket at the end on first sight (Python dicts preserve insertion order). -/
def topic_scores_add (acc : List (String × List ℚ)) (topic : String) (score : ℚ) :
    List (String × List ℚ) :=
  match acc with
  | [] => [(topic, [score])]
  | (t, l) :: rest =>
    if t = topic then (t, l ++ [score]) :: rest
    else (t, l) :: topic_scores_add rest topic score

/-- The `for i, answer in enumerate(session.answers)` loop of
`generate_summary` (lines 320-326): answers are grouped by the topic of the
question at the same positional index; indices beyond `len(questions)` are
skipped. -/
def topic_scores_aux (qs : List Question) :
    List Answer → Nat → List (String × List ℚ) → List (String × List ℚ)
  | [], _, acc => acc
  | a :: rest, i, acc =>
    if i < qs.length then
      topic_scores_aux qs rest (i + 1)
        (topic_scores_add acc (qs.getD i { id := 0, question := "", topic := "" }).topic
          a.score)
    else topic_scores_aux qs rest (i + 1) acc

/-- Embeds the `topic_scores` dict of `generate_summary` (lines 320-326). -/
def topic_scores_of (qs : List Question) (ans : List Answer) :
    List (String × List ℚ) :=
  topic_scores_aux qs ans 0 []

/-- Embeds the `topic_averages` dict of `generate_summary` (lines 328-331). -/
def topic_averages_of (qs : List Question) (ans : List Answer) :
    List (String × ℚ) :=
  (topic_scores_of qs ans).map (fun p => (p.1, calculate_average_score p.2))

/-- Python `max(items, key=lambda x: x[1])` over a non-empty iterable: scan
left to right, replacing the current best only on a strictly greater key, so
ties keep the earliest element. -/
def maxFold (cur : String × ℚ) : List (String × ℚ) → String × ℚ
  | [] => cur
  | y :: ys => maxFold (if cur.2 < y.2 then y else cur) ys

/-- Embeds `max(topic_averages.items(), key=lambda x: x[1])` (line 333),
`none` for an empty iterable (where Python would raise). -/
def pyMaxBy : List (String × ℚ) → Option (String × ℚ)
  | [] => none
  | x :: xs => some (maxFold x xs)

/-- Python `min(items, key=lambda x: x[1])`: replace only on a strictly
smaller key. -/
def minFold (cur : String × ℚ) : List (String × ℚ) → String × ℚ
  | [] => cur
  | y :: ys => minFold (if y.2 < cur.2 then y else cur) ys

/-- Embeds `min(topic_averages.items(), key=lambda x: x[1])` (line 334). -/
def pyMinBy : List (String × ℚ) → Option (String × ℚ)
  | [] => none
  | x :: xs => some (minFold x xs)

/-- The `statistics` sub-dict of the summary (lines 344-350). -/
structure Statistics where
  total_questions : Nat
  total_answers : Nat
  average_score : ℚ
  performance_level : String
  completion_rate : ℚ
deriving Repr, DecidableEq

/-- One entry of `questions_and_answers` (lines 356-367). -/
structure QARecord where
  question_number : Nat
  topic : String
  question : String
  answer : Option String
  feedback : Option String
  score : Option ℚ
  timestamp : Option Nat
deriving Repr, DecidableEq

/-- The summary dict assembled by `generate_summary` (lines 336-368). -/
structure Summary where
  session_id : String
  role : String
  difficulty : String
  topics : List String
  state : SState
  created_at : Nat
  completed_at : Option Nat
  statistics : Statistics
  topic_performance : List (String × ℚ)
  strongest_topic : String
  strongest_topic_score : ℚ
  weakest_topic : String
  weakest_topic_score : ℚ
  questions_and_answers : List QARecord
deriving Repr, DecidableEq

/-- The `questions_and_answers` transcript (lines 356-367): one record per
question index; answer fields are `None` beyond the answered count. -/
def qaRecords (qs : List Question) (ans : List Answer) : List QARecord :=
  (List.range qs.length).map (fun i =>
    { question_number := i + 1,
      topic := (qs.getD i { id := 0, question := "", topic := "" }).topic,
      question := (qs.getD i { id := 0, question := "", topic := "" }).question,
      answer := (ans.get? i).map Answer.answer,
      feedback := (ans.get? i).map Answer.feedback,
      score := (ans.get? i).map Answer.score,
      timestamp := (ans.get? i).map Answer.timestamp })

/-- Embeds `utils.format_interview_summary` (utils.py lines 140-166): re-round the
float values of `statistics` and of `topic_performance`; everything else is
returned unchanged. -/
def format_interview_summary (su : Summary) : Summary :=
  { su with
      statistics := { su.statistics with
        average_score := pyRound2 su.statistics.average_score,
        completion_rate := pyRound2 su.statistics.completion_rate },
      topic_performance := su.topic_performance.map (fun p => (p.1, pyRound2 p.2)) }

/-- Embeds `InterviewManager.generate_summary` (lines 285-375).  Read-only: the
session is not mutated.  `strongest_topic` / `weakest_topic` are Python
`max` / `min` by the average value with the `("N/A", 0)` fallback for an
empty `topic_averages` (lines 333-334). -/
def generate_summary (m : ManagerState) (sid : String) : Except IErr Summary :=
  match storeGet m.sessions sid with
  | none => Except.error (IErr.sessionNotFound sid)
  | some s =>
    let average_score := calculate_average_score s.scores
    let topic_averages := topic_averages_of s.questions s.answers
    let strongest_topic := (pyMaxBy topic_averages).getD ("N/A", 0)
    let weakest_topic := (pyMinBy topic_averages).getD ("N/A", 0)
    Except.ok (format_interview_summary
      { session_id := s.session_id, role := s.role, difficulty := s.difficulty,
        topics := s.topics, state := s.state, created_at := s.created_at,
        completed_at := s.completed_at,
        statistics :=
          { total_questions := s.questions.length,
            total_answers := s.answers.length,
            average_score := pyRound2 average_score,
            performance_level := performance_level_of average_score,
            completion_rate :=
              pyRound2 (((s.answers.length : ℚ) / (m.maxQuestions : ℚ)) * 100) },
        topic_performance := topic_averages,
        strongest_topic := strongest_topic.1,
        strongest_topic_score := pyRound2 strongest_topic.2,
        weakest_topic := weakest_topic.1,
        weakest_topic_score := pyRound2 weakest_topic.2,
        questions_and_answers := qaRecords s.questions s.answers })

/-- JSON values, as produced by `json.loads` in
`FeedbackChain.generate_feedback` (feedback_chain.py lines 85-109). -/
inductive JVal where
  | jnum (q : ℚ)
  | jstr (s : String)
  | jbool (b : Bool)
  | jnull
  | jarr (elems : List JVal)
  | jobj (fields : List (String × JVal))

/-- Whether a JSON value is an object (`isinstance(..., dict)`). -/
def JVal.isObj : JVal → Bool
  | .jobj _ => true
  | _ => false

/-- Dict lookup on a parsed JSON object.  JSON objects have unique keys
(for duplicate keys `json.loads` keeps the last; first-match lookup is used
here and coincides with dict semantics on unique keys). -/
def lookupJ (fields : List (String × JVal)) (key : String) : Option JVal :=
  match fields with
  | [] => none
  | (k, v) :: rest => if k = key then some v else lookupJ rest key

/-- Python `float(...)` applied to a JSON value, `none` when it raises.
Numbers and booleans convert; `None`, lists and dicts raise `TypeError`.
(CPython also parses numeric strings; that corner is modelled as raising —
no claim of this development involves a string-valued score.) -/
def pyFloat : JVal → Option ℚ
  | .jnum q => some q
  | .jbool b => some (if b then 1 else 0)
  | _ => none

/-- Python `str(...)` applied to a JSON value.  String values are returned
as-is (the only case the claims exercise); the remaining constructors use a
best-effort rendering — CPython's exact float/container formatting is not
reproduced. -/
def pyStr : JVal → String
  | .jstr s => s
  | .jbool b => if b then "True" else "False"
  | .jnull => "None"
  | .jnum q => toString q
  | .jarr _ => "[...]"
  | .jobj _ => "\x7b...\x7d"

/-- The markdown-fence stripping of `generate_feedback` (lines 80-82):
`raw_text.split("```")[1].strip().replace("json", "").strip()` when the
text starts with a fence. -/
def clean_raw (raw : String) : String :=
  if pyStartsWith raw "```" then
    pyStrip ((pyStrip ((raw.splitOn "```").getD 1 "")).replace "json" "")
  else raw

/-- The score-extraction block of `generate_feedback` (lines 88-95) run
inside the `try`: `some (some q)` when a score was extracted, `some none`
when no recognized score field exists (score stays `None`), `none` when a
`float(...)` conversion raised (which aborts the whole `try`). -/
def extract_score (fields : List (String × JVal)) : Option (Option ℚ) :=
  match lookupJ fields "score" with
  | some v => (pyFloat v).map some
  | none =>
    match lookupJ fields "scores" with
    | some (JVal.jobj sf) =>
      (pyFloat ((lookupJ sf "overall").getD (JVal.jnum 5))).map some
    | some _ => some none
    | none => some none

/-- The feedback-extraction block of `generate_feedback` (lines 97-101):
`data["feedback"]`, else `data["detailed_feedback"]`, else `None`. -/
def extract_feedback (fields : List (String × JVal)) : Option String :=
  match lookupJ fields "feedback" with
  | some v => some (pyStr v)
  | none =>
    match lookupJ fields "detailed_feedback" with
    | some v => some (pyStr v)
    | none => none

/-- Embeds `FeedbackChain.generate_feedback` after the LLM call
(feedback_chain.py lines 76-115).  `content` is the collaborator's raw
reply (`raw.content`); `parsed` is the outcome of `json.loads` on the
cleaned text (`none` = unparseable).  On a parsed object the score defaults
to `5.0` when no recognized score field exists and the feedback falls back
to the raw text when the extracted feedback is `None` or empty
(`feedback if feedback else raw_text`); any `float(...)` failure inside the
`try` lands in the final `except` fallback `(5.0, raw_text)`.  A parsed
non-object value reaches the same fallback: its membership tests are false
or its indexing raises `TypeError`, which the `except` swallows. -/
def generate_feedback (content : String) (parsed : Option JVal) : FeedbackResult :=
  let raw_text := clean_raw (pyStrip content)
  match parsed with
  | none => { score := 5, feedback := raw_text }
  | some (JVal.jobj fields) =>
    match extract_score fields with
    | none => { score := 5, feedback := raw_text }
    | some scoreOpt =>
      { score := scoreOpt.getD 5,
        feedback :=
          match extract_feedback fields with
          | some f => if f = "" then raw_text else f
          | none => raw_text }
  | some _ => { score := 5, feedback := raw_text }

/-- A manager operation together with the oracle replies of the external
collaborators it consumes.  `query` stands for the read-only operations
(`get_current_question`, `get_session_state`, `is_complete`,
`generate_summary`, `get_all_sessions`), none of which assigns to any
session or manager attribute. -/
inductive Op where
  | start (sid role difficulty : String) (topics : List String) (qText : String)
  | submit (sid : String) (question_id : Nat) (answer : String)
      (fb : FeedbackResult) (nextQText : String)
  | next (sid : String) (qText : String)
  | query (sid : String)
  | delete (sid : String)

/-- Effect of one manager operation on the manager state (results are
reported to the caller and do not feed back into the state). -/
def applyOp (m : ManagerState) : Op → ManagerState
  | .start sid role difficulty topics qText =>
    (start_interview m sid role difficulty topics qText).1
  | .submit sid qid ans fb nextQText => (submit_answer m sid qid ans fb nextQText).1
  | .next sid qText => (next_question_op m sid qText).1
  | .query _ => m
  | .delete sid => (delete_session m sid).1

/-- Run a sequence of manager operations. -/
def runOps (m : ManagerState) (ops : List Op) : ManagerState :=
  ops.foldl applyOp m

/-- A fresh `InterviewManager` (`self.sessions = {}`) with the configured
`MAX_QUESTIONS`. -/
def initState (maxQuestions : Nat) : ManagerState :=
  { sessions := [], clock := 0, maxQuestions := maxQuestions }

/-- Per-session invariant maintained by every manager operation (the parts
needed by the claims): `scores` parallels `answers`; the question count
dominates `1 + min(answered, MAX_QUESTIONS - 1)` (hence
`answers ≤ questions` while at most `MAX_QUESTIONS` answers exist); the id
counter equals the question count; question ids are `0, 1, 2, ...` in
append order; topics follow the cyclic assignment; stored sessions are
never in `not_started`. -/
def SessionInv (maxQuestions : Nat) (s : InterviewSession) : Prop :=
  s.scores.length = s.answers.length ∧
  1 + min s.answers.length (maxQuestions - 1) ≤ s.questions.length ∧
  s.current_question_id = s.questions.length ∧
  s.questions.map Question.id = List.range s.questions.length ∧
  s.questions.map Question.topic =
    (List.range s.questions.length).map (topicSpec s.topics) ∧
  s.state ≠ SState.not_started

/-- All sessions in the store satisfy the session invariant. -/
def ManagerInv (m : ManagerState) : Prop :=
  ∀ sid s, storeGet m.sessions sid = some s → SessionInv m.maxQuestions s

/-- Order of the session lifecycle `not_started → in_progress → completed`. -/
def rank : SState → Nat
  | .not_started => 0
  | .in_progress => 1
  | .completed => 2

/-- Freshness assumption: `generate_session_id()` produces ids that are
unique with overwhelming
probability (uuid4 plus a timestamp); an operation is run under that
assumption when any `start` it performs uses an id not already present. -/
def opFresh (m : ManagerState) : Op → Prop
  | .start sid _ _ _ _ => storeGet m.sessions sid = none
  | _ => True

/-- Predicate: `p` is the first element of `l` attaining the maximal second
component:
everything before it is strictly smaller, everything after it is no
larger. -/
def FirstMax (l : List (String × ℚ)) (p : String × ℚ) : Prop :=
  ∃ l1 l2, l = l1 ++ p :: l2 ∧ (∀ y ∈ l1, y.2 < p.2) ∧ ∀ y ∈ l2, y.2 ≤ p.2

/-- Predicate: `p` is the first element of `l` attaining the minimal second
component. -/
def FirstMin (l : List (String × ℚ)) (p : String × ℚ) : Prop :=
  ∃ l1 l2, l = l1 ++ p :: l2 ∧ (∀ y ∈ l1, p.2 < y.2) ∧ ∀ y ∈ l2, p.2 ≤ y.2

/-- A trace that answers question 0 eleven times with `MAX_QUESTIONS = 10`:
the manager accepts every submission (no state check), so the answer list
overflows the question list. -/
def overflowOps : List Op :=
  Op.start "s" "dev" "easy" ["a"] "Q0" ::
    (List.range 11).map (fun i =>
      Op.submit "s" 0 "ans" { score := 5, feedback := "fb" }
        ("Q" ++ toString (i + 1)))

/-- Trace for the C2 witness: a single `start_interview`. -/
def startOnlyOps : List Op := [Op.start "s" "dev" "easy" ["a"] "Q0"]

/-- The session produced by `startOnlyOps`. -/
def startOnlySession : InterviewSession :=
  { session_id := "s", role := "dev", difficulty := "easy", topics := ["a"],
    questions := [{ id := 0, question := "Q0", topic := "a" }],
    answers := [], current_question_id := 1, current_question_index := 0,
    scores := [], state := SState.in_progress, created_at := 0,
    completed_at := none }

/-- Trace for the C5 witness: start, then the single answer that completes
the interview at `MAX_QUESTIONS = 1`. -/
def completeOps : List Op :=
  [Op.start "s" "dev" "easy" ["a"] "Q0",
   Op.submit "s" 0 "ans" { score := 5, feedback := "fb" } "Q1"]

/-- The session produced by `completeOps` at `MAX_QUESTIONS = 1`. -/
def completeSession : InterviewSession :=
  { session_id := "s", role := "dev", difficulty := "easy", topics := ["a"],
    questions := [{ id := 0, question := "Q0", topic := "a" }],
    answers := [{ question_id := 0, answer := "ans", feedback := "fb",
                  score := 5, timestamp := 1 }],
    current_question_id := 1, current_question_index := 0, scores := [5],
    state := SState.completed, created_at := 0, completed_at := some 1 }

/-- Trace for the C6 witness: four questions over the topics `["a", "b"]`. -/
def cyclicOps : List Op :=
  [Op.start "s" "dev" "easy" ["a", "b"] "Q0",
   Op.next "s" "Q1", Op.next "s" "Q2", Op.next "s" "Q3"]

/-- The session produced by `cyclicOps`. -/
def cyclicSession : InterviewSession :=
  { session_id := "s", role := "dev", difficulty := "easy", topics := ["a", "b"],
    questions := [{ id := 0, question := "Q0", topic := "a" },
                  { id := 1, question := "Q1", topic := "b" },
                  { id := 2, question := "Q2", topic := "a" },
                  { id := 3, question := "Q3", topic := "b" }],
    answers := [], current_question_id := 4, current_question_index := 3,
    scores := [], state := SState.in_progress, created_at := 0,
    completed_at := none }

/-- Trace for the C7 witness: three questions with an empty topics list. -/
def idsOps : List Op :=
  [Op.start "t" "dev" "easy" [] "Q0", Op.next "t" "Q1", Op.next "t" "Q2"]

/-- The session produced by `idsOps`. -/
def idsSession : InterviewSession :=
  { session_id := "t", role := "dev", difficulty := "easy", topics := [],
    questions := [{ id := 0, question := "Q0", topic := "general" },
                  { id := 1, question := "Q1", topic := "general" },
                  { id := 2, question := "Q2", topic := "general" }],
    answers := [], current_question_id := 3, current_question_index := 2,
    scores := [], state := SState.in_progress, created_at := 0,
    completed_at := none }

/-- A session holding one unanswered question, used by the C3 and C4
witnesses. -/
def oneQuestionSession : InterviewSession :=
  { session_id := "s", role := "dev", difficulty := "easy", topics := ["a"],
    questions := [{ id := 0, question := "Q0", topic := "a" }],
    answers := [], current_question_id := 1, current_question_index := 0,
    scores := [], state := SState.in_progress, created_at := 0,
    completed_at := none }

/-- Manager holding `oneQuestionSession` with `MAX_QUESTIONS = 1` (the next
answer completes the interview). -/
def oneQuestionMgr1 : ManagerState :=
  { sessions := [("s", oneQuestionSession)], clock := 5, maxQuestions := 1 }

/-- Manager holding `oneQuestionSession` with `MAX_QUESTIONS = 2` (the next
answer does not complete the interview). -/
def oneQuestionMgr2 : ManagerState :=
  { sessions := [("s", oneQuestionSession)], clock := 5, maxQuestions := 2 }

/-- A finished session (three answered questions) whose per-topic averages
are `algo ↦ 9.0`, `db ↦ 4.0`, used by the C9 witness. -/
def summarySession : InterviewSession :=
  { session_id := "s9", role := "dev", difficulty := "medium",
    topics := ["algo", "algo", "db"],
    questions := [{ id := 0, question := "q0", topic := "algo" },
                  { id := 1, question := "q1", topic := "algo" },
                  { id := 2, question := "q2", topic := "db" }],
    answers := [{ question_id := 0, answer := "a0", feedback := "f0",
                  score := 8, timestamp := 1 },
                { question_id := 1, answer := "a1", feedback := "f1",
                  score := 10, timestamp := 2 },
                { question_id := 2, answer := "a2", feedback := "f2",
                  score := 4, timestamp := 3 }],
    current_question_id := 3, current_question_index := 2,
    scores := [8, 10, 4], state := SState.completed, created_at := 0,
    completed_at := some 3 }

/-- Manager holding `summarySession`. -/
def summaryMgr : ManagerState :=
  { sessions := [("s9", summarySession)], clock := 4, maxQuestions := 3 }

/-- A completed session (`MAX_QUESTIONS = 1` reached), used by the C10
witness. -/
def completedSession : InterviewSession :=
  { session_id := "c", role := "dev", difficulty := "easy", topics := ["a"],
    questions := [{ id := 0, question := "Q0", topic := "a" }],
    answers := [{ question_id := 0, answer := "ans", feedback := "fb",
                  score := 5, timestamp := 1 }],
    current_question_id := 1, current_question_index := 0, scores := [5],
    state := SState.completed, created_at := 0, completed_at := some 1 }

/-- Manager holding `completedSession` with `MAX_QUESTIONS = 1`. -/
def completedMgr : ManagerState :=
  { sessions := [("c", completedSession)], clock := 7, maxQuestions := 1 }

/-- The session stored after submitting the answer of `completeOps` through
`oneQuestionMgr1` (clock 5), used by the C5 witness. -/
def answeredSession : InterviewSession :=
  { session_id := "s", role := "dev", difficulty := "easy", topics := ["a"],
    questions := [{ id := 0, question := "Q0", topic := "a" }],
    answers := [{ question_id := 0, answer := "ans", feedback := "fb",
                  score := 5, timestamp := 5 }],
    current_question_id := 1, current_question_index := 0, scores := [5],
    state := SState.completed, created_at := 0, completed_at := some 5 }

/-- The session created by `start_interview` on a fresh manager for session
id `"w"`, used by the C5 witness. -/
def wSession : InterviewSession :=
  { session_id := "w", role := "rr", difficulty := "dd", topics := ["a"],
    questions := [{ id := 0, question := "Q0", topic := "a" }],
    answers := [], current_question_id := 1, current_question_index := 0,
    scores := [], state := SState.in_progress, created_at := 0,
    completed_at := none }

theorem storeGet_storeSet (l : List (String × InterviewSession)) (sid sid' : String)
    (s : InterviewSession) :
    storeGet (storeSet l sid s) sid' =
      if sid = sid' then some s else storeGet l sid' := by
  induction l with
  | nil => simp [storeSet, storeGet]
  | cons p rest ih =>
    obtain ⟨k, v⟩ := p
    by_cases hk : k = sid
    · subst hk
      by_cases hk' : k = sid'
      · simp [storeSet, storeGet, hk']
      · simp [storeSet, storeGet, hk']
    · by_cases hk' : k = sid'
      · subst hk'
        have hne : ¬ sid = k := fun h => hk h.symm
        simp [storeSet, storeGet, hk, hne]
      · simp [storeSet, storeGet, hk, hk', ih]

theorem storeGet_storeSet_self (l : List (String × InterviewSession)) (sid : String)
    (s : InterviewSession) : storeGet (storeSet l sid s) sid = some s := by
  simp [storeGet_storeSet]

theorem storeGet_storeDel (l : List (String × InterviewSession)) (sid sid' : String) :
    storeGet (storeDel l sid) sid' =
      if sid' = sid then none else storeGet l sid' := by
  induction l with
  | nil => simp [storeDel, storeGet]
  | cons p rest ih =>
    obtain ⟨k, v⟩ := p
    by_cases hk : k = sid
    · subst hk
      by_cases hk' : sid' = k
      · simpa [storeDel, hk'] using ih
      · have hne : ¬ k = sid' := fun h => hk' h.symm
        simp [storeDel, storeGet, hk', hne, ih]
    · by_cases hk' : k = sid'
      · subst hk'
        simp [storeDel, storeGet, hk, ih]
      · simp [storeDel, storeGet, hk, hk', ih]

theorem storeSet_storeSet_self (l : List (String × InterviewSession)) (sid : String)
    (a b : InterviewSession) : storeSet (storeSet l sid a) sid b = storeSet l sid b := by
  induction l with
  | nil => simp [storeSet]
  | cons p rest ih =>
    obtain ⟨k, v⟩ := p
    by_cases hk : k = sid
    · subst hk
      simp [storeSet]
    · simp [storeSet, hk, ih]

theorem add_question_parts (s : InterviewSession) (q : String)
    (h3 : s.current_question_id = s.questions.length)
    (h4 : s.questions.map Question.id = List.range s.questions.length)
    (h5 : s.questions.map Question.topic =
      (List.range s.questions.length).map (topicSpec s.topics)) :
    (add_question s q).1.current_question_id = (add_question s q).1.questions.length ∧
    (add_question s q).1.questions.map Question.id =
      List.range (add_question s q).1.questions.length ∧
    (add_question s q).1.questions.map Question.topic =
      (List.range (add_question s q).1.questions.length).map
        (topicSpec (add_question s q).1.topics) := by
  refine ⟨by simp [add_question, h3], ?_, ?_⟩
  · simp only [add_question, List.map_append, List.length_append, List.map_cons,
      List.map_nil, List.length_cons, List.length_nil]
    rw [h4, h3, List.range_succ]
  · simp only [add_question, List.map_append, List.length_append, List.map_cons,
      List.map_nil, List.length_cons, List.length_nil]
    rw [h5, h3, List.range_succ]
    simp [topicSpec]

theorem managerInv_start (m : ManagerState) (h : ManagerInv m)
    (sid role difficulty : String) (topics : List String) (qText : String) :
    ManagerInv (start_interview m sid role difficulty topics qText).1 := by
  intro sid' s' hs'
  simp only [start_interview] at hs' ⊢
  rw [storeGet_storeSet] at hs'
  by_cases he : sid = sid'
  · rw [if_pos he] at hs'
    cases hs'
    refine ⟨by simp [add_question], ?_, by simp [add_question], ?_, ?_,
      by simp [add_question]⟩
    · simp only [add_question, List.length_append, List.length_cons, List.length_nil]
      omega
    · simp [add_question, List.range_succ]
    · simp [add_question, List.range_succ, topicSpec]
  · rw [if_neg he] at hs'
    exact h sid' s' hs'

theorem managerInv_next (m : ManagerState) (h : ManagerInv m) (sid qText : String) :
    ManagerInv (next_question_op m sid qText).1 := by
  intro sid' s' hs'
  rcases h0 : storeGet m.sessions sid with _ | s0
  · simp only [next_question_op, h0] at hs' ⊢
    exact h sid' s' hs'
  · simp only [next_question_op, h0] at hs' ⊢
    rw [storeGet_storeSet] at hs'
    by_cases he : sid = sid'
    · rw [if_pos he] at hs'
      cases hs'
      obtain ⟨i1, i2, i3, i4, i5, i6⟩ := h sid s0 h0
      obtain ⟨j3, j4, j5⟩ := add_question_parts
        { s0 with current_question_index := s0.current_question_index + 1 } qText
        (by simpa using i3) (by simpa using i4) (by simpa using i5)
      refine ⟨by simpa [add_question] using i1, ?_, j3, j4, j5,
        by simpa [add_question] using i6⟩
      simp only [add_question, List.length_append, List.length_cons, List.length_nil]
      omega
    · rw [if_neg he] at hs'
      exact h sid' s' hs'

theorem managerInv_submit (m : ManagerState) (h : ManagerInv m) (sid : String)
    (qid : Nat) (ans : String) (fb : FeedbackResult) (nextQText : String) :
    ManagerInv (submit_answer m sid qid ans fb nextQText).1 := by
  intro sid' s' hs'
  rcases h0 : storeGet m.sessions sid with _ | s0
  · simp only [submit_answer, h0] at hs' ⊢
    exact h sid' s' hs'
  · rcases hf : s0.questions.find? (fun q => q.id == qid) with _ | qd
    · simp only [submit_answer, h0, hf] at hs' ⊢
      exact h sid' s' hs'
    · by_cases hc :
          is_complete (add_answer s0 qid ans fb.feedback fb.score m.clock)
            m.maxQuestions = true
      · simp only [submit_answer, h0, hf, hc, if_true] at hs' ⊢
        rw [storeGet_storeSet] at hs'
        by_cases he : sid = sid'
        · rw [if_pos he] at hs'
          cases hs'
          obtain ⟨i1, i2, i3, i4, i5, i6⟩ := h sid s0 h0
          have hc2 : m.maxQuestions ≤ s0.answers.length + 1 := by
            simpa [is_complete, add_answer] using hc
          refine ⟨?_, ?_, by simpa [mark_complete, add_answer] using i3,
            by simpa [mark_complete, add_answer] using i4,
            by simpa [mark_complete, add_answer] using i5,
            by simp [mark_complete]⟩
          · simp only [mark_complete, add_answer, List.length_append,
              List.length_cons, List.length_nil]
            omega
          · simp only [mark_complete, add_answer, List.length_append,
              List.length_cons, List.length_nil]
            omega
        · rw [if_neg he] at hs'
          exact h sid' s' hs'
      · simp only [Bool.not_eq_true] at hc
        simp only [submit_answer, h0, hf, hc, Bool.false_eq_true, if_false,
          next_question_op, storeGet_storeSet_self, storeSet_storeSet_self] at hs' ⊢
        rw [storeGet_storeSet] at hs'
        by_cases he : sid = sid'
        · rw [if_pos he] at hs'
          cases hs'
          obtain ⟨i1, i2, i3, i4, i5, i6⟩ := h sid s0 h0
          have hc2 : ¬ m.maxQuestions ≤ s0.answers.length + 1 := by
            simpa [is_complete, add_answer] using hc
          obtain ⟨j3, j4, j5⟩ := add_question_parts
            { (add_answer s0 qid ans fb.feedback fb.score m.clock) with
                current_question_index :=
                  (add_answer s0 qid ans fb.feedback
                    fb.score m.clock).current_question_index + 1 }
            nextQText
            (by simpa [add_answer] using i3) (by simpa [add_answer] using i4)
            (by simpa [add_answer] using i5)
          refine ⟨by simp [add_question, add_answer, i1], ?_, j3, j4, j5,
            by simpa [add_question, add_answer] using i6⟩
          simp only [add_question, add_answer, List.length_append,
            List.length_cons, List.length_nil]
          omega
        · rw [if_neg he] at hs'
          exact h sid' s' hs'

theorem managerInv_delete (m : ManagerState) (h : ManagerInv m) (sid : String) :
    ManagerInv (delete_session m sid).1 := by
  intro sid' s' hs'
  by_cases hp : (storeGet m.sessions sid).isSome
  · simp only [delete_session, hp, if_true] at hs' ⊢
    rw [storeGet_storeDel] at hs'
    by_cases he : sid' = sid
    · rw [if_pos he] at hs'
      cases hs'
    · rw [if_neg he] at hs'
      exact h sid' s' hs'
  · simp only [delete_session, hp, if_false] at hs' ⊢
    exact h sid' s' hs'

theorem managerInv_applyOp (m : ManagerState) (op : Op) (h : ManagerInv m) :
    ManagerInv (applyOp m op) := by
  cases op with
  | start sid role difficulty topics qText =>
    exact managerInv_start m h sid role difficulty topics qText
  | submit sid qid ans fb nextQText => exact managerInv_submit m h sid qid ans fb nextQText
  | next sid qText => exact managerInv_next m h sid qText
  | query sid => exact h
  | delete sid => exact managerInv_delete m h sid

theorem managerInv_runOps_of (ops : List Op) :
    ∀ m : ManagerState, ManagerInv m → ManagerInv (runOps m ops) := by
  induction ops with
  | nil => intro m h; exact h
  | cons op rest ih =>
    intro m h
    simpa [runOps] using ih (applyOp m op) (managerInv_applyOp m op h)

theorem managerInv_runOps (maxQuestions : Nat) (ops : List Op) :
    ManagerInv (runOps (initState maxQuestions) ops) := by
  apply managerInv_runOps_of
  intro sid s hs
  simp [initState, storeGet] at hs

theorem rank_le_two (st : SState) : rank st ≤ 2 := by
  cases st <;> simp [rank]

theorem stateRank_step_mono (m : ManagerState) (op : Op) (sid : String)
    (hfresh : opFresh m op) (s s2 : InterviewSession)
    (hs : storeGet m.sessions sid = some s)
    (hs2 : storeGet (applyOp m op).sessions sid = some s2) :
    rank s.state ≤ rank s2.state := by
  cases op with
  | start sid0 role difficulty topics qText =>
    simp only [opFresh] at hfresh
    simp only [applyOp, start_interview] at hs2
    rw [storeGet_storeSet] at hs2
    by_cases he : sid0 = sid
    · subst he
      rw [hfresh] at hs
      cases hs
    · rw [if_neg he] at hs2
      rw [hs] at hs2
      cases hs2
      exact le_refl _
  | submit sid0 qid ans fb nextQText =>
    rcases h0 : storeGet m.sessions sid0 with _ | s0
    · simp only [applyOp, submit_answer, h0] at hs2
      rw [hs] at hs2
      cases hs2
      exact le_refl _
    · rcases hf : s0.questions.find? (fun q => q.id == qid) with _ | qd
      · simp only [applyOp, submit_answer, h0, hf] at hs2
        rw [hs] at hs2
        cases hs2
        exact le_refl _
      · by_cases hc :
            is_complete (add_answer s0 qid ans fb.feedback fb.score m.clock)
              m.maxQuestions = true
        · simp only [applyOp, submit_answer, h0, hf, hc, if_true] at hs2
          rw [storeGet_storeSet] at hs2
          by_cases he : sid0 = sid
          · rw [if_pos he] at hs2
            cases hs2
            simp only [mark_complete]
            exact le_trans (rank_le_two s.state) (by simp [rank])
          · rw [if_neg he] at hs2
            rw [hs] at hs2
            cases hs2
            exact le_refl _
        · simp only [Bool.not_eq_true] at hc
          simp only [applyOp, submit_answer, h0, hf, hc, Bool.false_eq_true, if_false,
            next_question_op, storeGet_storeSet_self, storeSet_storeSet_self] at hs2
          rw [storeGet_storeSet] at hs2
          by_cases he : sid0 = sid
          · rw [if_pos he] at hs2
            subst he
            rw [h0] at hs
            cases hs
            cases hs2
            simp only [add_question, add_answer]
            exact le_refl _
          · rw [if_neg he] at hs2
            rw [hs] at hs2
            cases hs2
            exact le_refl _
  | next sid0 qText =>
    rcases h0 : storeGet m.sessions sid0 with _ | s0
    · simp only [applyOp, next_question_op, h0] at hs2
      rw [hs] at hs2
      cases hs2
      exact le_refl _
    · simp only [applyOp, next_question_op, h0] at hs2
      rw [storeGet_storeSet] at hs2
      by_cases he : sid0 = sid
      · rw [if_pos he] at hs2
        subst he
        rw [h0] at hs
        cases hs
        cases hs2
        simp only [add_question]
        exact le_refl _
      · rw [if_neg he] at hs2
        rw [hs] at hs2
        cases hs2
        exact le_refl _
  | query sid0 =>
    simp only [applyOp] at hs2
    rw [hs] at hs2
    cases hs2
    exact le_refl _
  | delete sid0 =>
    simp only [applyOp, delete_session] at hs2
    by_cases hp : (storeGet m.sessions sid0).isSome
    · rw [if_pos hp] at hs2
      simp only at hs2
      rw [storeGet_storeDel] at hs2
      by_cases he : sid = sid0
      · rw [if_pos he] at hs2
        cases hs2
      · rw [if_neg he] at hs2
        rw [hs] at hs2
        cases hs2
        exact le_refl _
    · rw [if_neg hp] at hs2
      rw [hs] at hs2
      cases hs2
      exact le_refl _

theorem stateNew_in_progress (m : ManagerState) (op : Op) (sid : String)
    (hnone : storeGet m.sessions sid = none) (s2 : InterviewSession)
    (hs2 : storeGet (applyOp m op).sessions sid = some s2) :
    s2.state = SState.in_progress := by
  cases op with
  | start sid0 role difficulty topics qText =>
    simp only [applyOp, start_interview] at hs2
    rw [storeGet_storeSet] at hs2
    by_cases he : sid0 = sid
    · rw [if_pos he] at hs2
      cases hs2
      simp [add_question]
    · rw [if_neg he] at hs2
      rw [hnone] at hs2
      cases hs2
  | submit sid0 qid ans fb nextQText =>
    rcases h0 : storeGet m.sessions sid0 with _ | s0
    · simp only [applyOp, submit_answer, h0] at hs2
      rw [hnone] at hs2
      cases hs2
    · rcases hf : s0.questions.find? (fun q => q.id == qid) with _ | qd
      · simp only [applyOp, submit_answer, h0, hf] at hs2
        rw [hnone] at hs2
        cases hs2
      · by_cases hc :
            is_complete (add_answer s0 qid ans fb.feedback fb.score m.clock)
              m.maxQuestions = true
        · simp only [applyOp, submit_answer, h0, hf, hc, if_true] at hs2
          rw [storeGet_storeSet] at hs2
          by_cases he : sid0 = sid
          · subst he
            rw [h0] at hnone
            cases hnone
          · rw [if_neg he] at hs2
            rw [hnone] at hs2
            cases hs2
        · simp only [Bool.not_eq_true] at hc
          simp only [applyOp, submit_answer, h0, hf, hc, Bool.false_eq_true, if_false,
            next_question_op, storeGet_storeSet_self, storeSet_storeSet_self] at hs2
          rw [storeGet_storeSet] at hs2
          by_cases he : sid0 = sid
          · subst he
            rw [h0] at hnone
            cases hnone
          · rw [if_neg he] at hs2
            rw [hnone] at hs2
            cases hs2
  | next sid0 qText =>
    rcases h0 : storeGet m.sessions sid0 with _ | s0
    · simp only [applyOp, next_question_op, h0] at hs2
      rw [hnone] at hs2
      cases hs2
    · simp only [applyOp, next_question_op, h0] at hs2
      rw [storeGet_storeSet] at hs2
      by_cases he : sid0 = sid
      · subst he
        rw [h0] at hnone
        cases hnone
      · rw [if_neg he] at hs2
        rw [hnone] at hs2
        cases hs2
  | query sid0 =>
    simp only [applyOp] at hs2
    rw [hnone] at hs2
    cases hs2
  | delete sid0 =>
    simp only [applyOp, delete_session] at hs2
    by_cases hp : (storeGet m.sessions sid0).isSome
    · rw [if_pos hp] at hs2
      simp only at hs2
      rw [storeGet_storeDel] at hs2
      by_cases he : sid = sid0
      · rw [if_pos he] at hs2
        cases hs2
      · rw [if_neg he] at hs2
        rw [hnone] at hs2
        cases hs2
    · rw [if_neg hp] at hs2
      rw [hnone] at hs2
      cases hs2

theorem completed_passes_in_progress (maxQuestions : Nat) (sid : String) :
    ∀ (ops : List Op) (s : InterviewSession),
      storeGet (runOps (initState maxQuestions) ops).sessions sid = some s →
      s.state = SState.completed →
      ∃ (k : Nat) (s2 : InterviewSession), k ≤ ops.length ∧
        storeGet (runOps (initState maxQuestions) (ops.take k)).sessions sid = some s2 ∧
        s2.state = SState.in_progress := by
  intro ops
  induction ops using List.reverseRecOn with
  | nil =>
    intro s hs hcomp
    simp [runOps, initState, storeGet] at hs
  | append_singleton l op ih =>
    intro s hs hcomp
    simp only [runOps, List.foldl_append, List.foldl_cons, List.foldl_nil] at hs
    rcases h0 : storeGet (runOps (initState maxQuestions) l).sessions sid with _ | s0
    · have hnew := stateNew_in_progress _ op sid h0 s hs
      rw [hcomp] at hnew
      cases hnew
    · rcases hstate : s0.state with _ | _ | _
      · exact absurd hstate (managerInv_runOps maxQuestions l sid s0 h0).2.2.2.2.2
      · refine ⟨l.length, s0, by simp, ?_, hstate⟩
        rw [List.take_left]
        exact h0
      · obtain ⟨k, s2, hk, hsk, hs2⟩ := ih s0 h0 hstate
        refine ⟨k, s2, by simp; omega, ?_, hs2⟩
        rw [List.take_append_of_le_length hk]
        exact hsk

theorem maxFold_firstMax : ∀ (l : List (String × ℚ)) (cur : String × ℚ),
    FirstMax (cur :: l) (maxFold cur l) ∧ cur.2 ≤ (maxFold cur l).2 := by
  intro l
  induction l with
  | nil =>
    intro cur
    exact ⟨⟨[], [], rfl, by simp, by simp⟩, le_refl _⟩
  | cons y ys ih =>
    intro cur
    by_cases h : cur.2 < y.2
    · have hfold : maxFold cur (y :: ys) = maxFold y ys := by
        simp [maxFold, h]
      obtain ⟨⟨l1, l2, heq, hlt, hle⟩, hcur⟩ := ih y
      rw [hfold]
      refine ⟨⟨cur :: l1, l2, ?_, ?_, hle⟩, le_of_lt (lt_of_lt_of_le h hcur)⟩
      · simpa using congrArg (fun t => cur :: t) heq
      · intro z hz
        rcases List.mem_cons.mp hz with hz | hz
        · subst hz
          exact lt_of_lt_of_le h hcur
        · exact hlt z hz
    · have hfold : maxFold cur (y :: ys) = maxFold cur ys := by
        simp [maxFold, h]
      obtain ⟨⟨l1, l2, heq, hlt, hle⟩, hcur⟩ := ih cur
      rw [hfold]
      cases l1 with
      | nil =>
        simp only [List.nil_append, List.cons.injEq] at heq
        obtain ⟨h1, h2⟩ := heq
        refine ⟨⟨[], y :: l2, ?_, by simp, ?_⟩, hcur⟩
        · rw [List.nil_append, ← h1, ← h2]
        · intro z hz
          rcases List.mem_cons.mp hz with hz | hz
          · subst hz
            rw [← h1]
            exact not_lt.mp h
          · exact hle z hz
      | cons a l1x =>
        simp only [List.cons_append, List.cons.injEq] at heq
        obtain ⟨h1, h2⟩ := heq
        have hcurlt : cur.2 < (maxFold cur ys).2 := by
          have := hlt a (List.mem_cons_self a l1x)
          rw [← h1] at this
          exact this
        refine ⟨⟨cur :: y :: l1x, l2, ?_, ?_, hle⟩, hcur⟩
        · rw [List.cons_append, List.cons_append, ← h2]
        · intro z hz
          rcases List.mem_cons.mp hz with hz | hz
          · subst hz
            exact hcurlt
          rcases List.mem_cons.mp hz with hz | hz
          · subst hz
            exact lt_of_le_of_lt (not_lt.mp h) hcurlt
          · exact hlt z (List.mem_cons_of_mem a hz)

theorem minFold_firstMin : ∀ (l : List (String × ℚ)) (cur : String × ℚ),
    FirstMin (cur :: l) (minFold cur l) ∧ (minFold cur l).2 ≤ cur.2 := by
  intro l
  induction l with
  | nil =>
    intro cur
    exact ⟨⟨[], [], rfl, by simp, by simp⟩, le_refl _⟩
  | cons y ys ih =>
    intro cur
    by_cases h : y.2 < cur.2
    · have hfold : minFold cur (y :: ys) = minFold y ys := by
        simp [minFold, h]
      obtain ⟨⟨l1, l2, heq, hlt, hle⟩, hcur⟩ := ih y
      rw [hfold]
      refine ⟨⟨cur :: l1, l2, ?_, ?_, hle⟩, le_of_lt (lt_of_le_of_lt hcur h)⟩
      · simpa using congrArg (fun t => cur :: t) heq
      · intro z hz
        rcases List.mem_cons.mp hz with hz | hz
        · subst hz
          exact lt_of_le_of_lt hcur h
        · exact hlt z hz
    · have hfold : minFold cur (y :: ys) = minFold cur ys := by
        simp [minFold, h]
      obtain ⟨⟨l1, l2, heq, hlt, hle⟩, hcur⟩ := ih cur
      rw [hfold]
      cases l1 with
      | nil =>
        simp only [List.nil_append, List.cons.injEq] at heq
        obtain ⟨h1, h2⟩ := heq
        refine ⟨⟨[], y :: l2, ?_, by simp, ?_⟩, hcur⟩
        · rw [List.nil_append, ← h1, ← h2]
        · intro z hz
          rcases List.mem_cons.mp hz with hz | hz
          · subst hz
            rw [← h1]
            exact not_lt.mp h
          · exact hle z hz
      | cons a l1x =>
        simp only [List.cons_append, List.cons.injEq] at heq
        obtain ⟨h1, h2⟩ := heq
        have hcurlt : (minFold cur ys).2 < cur.2 := by
          have := hlt a (List.mem_cons_self a l1x)
          rw [← h1] at this
          exact this
        refine ⟨⟨cur :: y :: l1x, l2, ?_, ?_, hle⟩, hcur⟩
        · rw [List.cons_append, List.cons_append, ← h2]
        · intro z hz
          rcases List.mem_cons.mp hz with hz | hz
          · subst hz
            exact hcurlt
          rcases List.mem_cons.mp hz with hz | hz
          · subst hz
            exact lt_of_lt_of_le hcurlt (not_lt.mp h)
          · exact hlt z (List.mem_cons_of_mem a hz)

theorem pyMaxBy_firstMax (l : List (String × ℚ)) (p : String × ℚ)
    (h : pyMaxBy l = some p) : FirstMax l p := by
  cases l with
  | nil => cases h
  | cons x xs =>
    simp only [pyMaxBy, Option.some.injEq] at h
    rw [← h]
    exact (maxFold_firstMax xs x).1

theorem pyMinBy_firstMin (l : List (String × ℚ)) (p : String × ℚ)
    (h : pyMinBy l = some p) : FirstMin l p := by
  cases l with
  | nil => cases h
  | cons x xs =>
    simp only [pyMinBy, Option.some.injEq] at h
    rw [← h]
    exact (minFold_firstMin xs x).1

theorem applyOp_maxQuestions (m : ManagerState) (op : Op) :
    (applyOp m op).maxQuestions = m.maxQuestions := by
  cases op with
  | start sid role difficulty topics qText => rfl
  | submit sid qid ans fb nextQText =>
    rcases h0 : storeGet m.sessions sid with _ | s0
    · simp [applyOp, submit_answer, h0]
    · rcases hf : s0.questions.find? (fun q => q.id == qid) with _ | qd
      · simp [applyOp, submit_answer, h0, hf]
      · by_cases hc :
            is_complete (add_answer s0 qid ans fb.feedback fb.score m.clock)
              m.maxQuestions = true
        · simp [applyOp, submit_answer, h0, hf, hc]
        · simp only [Bool.not_eq_true] at hc
          simp [applyOp, submit_answer, h0, hf, hc, next_question_op,
            storeGet_storeSet_self]
  | next sid qText =>
    rcases h0 : storeGet m.sessions sid with _ | s0
    · simp [applyOp, next_question_op, h0]
    · simp [applyOp, next_question_op, h0]
  | query sid => rfl
  | delete sid =>
    by_cases hp : (storeGet m.sessions sid).isSome
    · simp [applyOp, delete_session, hp]
    · simp [applyOp, delete_session, hp]

theorem runOps_maxQuestions (m : ManagerState) (ops : List Op) :
    (runOps m ops).maxQuestions = m.maxQuestions := by
  induction ops generalizing m with
  | nil => rfl
  | cons op rest ih =>
    simp only [runOps, List.foldl_cons]
    exact (ih (applyOp m op)).trans (applyOp_maxQuestions m op)

/-- C1: the spec requires `start_interview` to reject an empty (or
whitespace-only) role or a difficulty outside `{easy, medium, hard}` with a
typed validation error before creating a session.  The code defines
`validate_role` / `validate_difficulty` but never calls them:
`start_interview` with `role = ""` and `difficulty = "weird"` (both invalid
by the code's own validators) succeeds, stores an `in_progress` session and
returns question id 0. -/
theorem start_interview_accepts_invalid_input :
    validate_role "" = false ∧
    validate_difficulty "weird" = false ∧
    ((storeGet (start_interview (initState 10) "sid1" "" "weird" [] "Q0").1.sessions
        "sid1").map
      (fun s => (s.state, s.role, s.difficulty, s.questions.length))) =
      some (SState.in_progress, "", "weird", 1) ∧
    (start_interview (initState 10) "sid1" "" "weird" [] "Q0").2.question_id = 0 := by
  refine ⟨by decide, by decide, by decide, by decide⟩

/-- C2 counterexample: with `MAX_QUESTIONS = 10`, starting a session and
submitting an answer for question 0 eleven times ends with `len(answers)
= 11 > 10 = len(questions)`: the invariant `len(answers) ≤ len(questions)`
does not hold after every operation sequence. -/
theorem answers_exceed_questions_after_overflow_submit :
    ((storeGet (runOps (initState 10) overflowOps).sessions "s").map
      (fun s => (s.answers.length, s.questions.length)) = some (11, 10)) ∧
    ¬ (11 ≤ 10) :=
  ⟨by decide, by decide⟩

/-- C2 (amended): after every sequence of manager operations,
`len(scores) = len(answers)` holds unconditionally, and
`len(answers) ≤ len(questions)` holds as long as at most `MAX_QUESTIONS`
answers have been accepted (submissions to an already-completed session
push `len(answers)` past `MAX_QUESTIONS` and break the second half). -/
theorem scores_answers_questions_invariant (maxQuestions : Nat) (ops : List Op)
    (sid : String) (s : InterviewSession)
    (hs : storeGet (runOps (initState maxQuestions) ops).sessions sid = some s) :
    s.scores.length = s.answers.length ∧
    (s.answers.length ≤ maxQuestions → s.answers.length ≤ s.questions.length) := by
  have hInv := managerInv_runOps maxQuestions ops sid s hs
  rw [runOps_maxQuestions] at hInv
  obtain ⟨i1, i2, -, -, -, -⟩ := hInv
  exact ⟨i1, fun hle => by simp only [initState] at i2; omega⟩

/-- C2 witness: the invariant instantiated on the session produced by a
single `start_interview` with `MAX_QUESTIONS = 3`. -/
theorem scores_answers_questions_invariant_witness :
    startOnlySession.scores.length = startOnlySession.answers.length ∧
    (startOnlySession.answers.length ≤ 3 →
      startOnlySession.answers.length ≤ startOnlySession.questions.length) :=
  scores_answers_questions_invariant 3 startOnlyOps "s" startOnlySession (by decide)

/-- C6: in every reachable session, the topic stored with the `i`-th
appended question is `topics[i % len(topics)]` when `topics` is non-empty
and `"general"` when it is empty. -/
theorem question_topic_cyclic_assignment (maxQuestions : Nat) (ops : List Op)
    (sid : String) (s : InterviewSession)
    (hs : storeGet (runOps (initState maxQuestions) ops).sessions sid = some s)
    (i : Nat) (hi : i < s.questions.length) :
    (s.questions.get ⟨i, hi⟩).topic =
      if s.topics.isEmpty then "general"
      else s.topics.getD (i % s.topics.length) "general" := by
  obtain ⟨-, -, -, -, i5, -⟩ := managerInv_runOps maxQuestions ops sid s hs
  have h1 : (s.questions.map Question.topic).get? i =
      some ((s.questions.get ⟨i, hi⟩).topic) := by
    rw [List.get?_map, List.get?_eq_get hi]
    rfl
  rw [i5, List.get?_map, List.get?_range hi] at h1
  have h2 := Option.some.inj h1
  rw [← h2]
  rfl

/-- C6 witness: with topics `["a", "b"]`, the fourth generated question
(index 3) carries topic `"b"`, i.e. `topics[3 % 2]`. -/
theorem question_topic_cyclic_assignment_witness :
    (cyclicSession.questions.get ⟨3, by decide⟩).topic =
      if cyclicSession.topics.isEmpty then "general"
      else cyclicSession.topics.getD (3 % cyclicSession.topics.length) "general" :=
  question_topic_cyclic_assignment 10 cyclicOps "s" cyclicSession (by decide) 3
    (by decide)

/-- C7: in every reachable session, the `i`-th appended question has id `i`
— so ids start at 0, are unique, strictly increase in append order and are
never reused, no matter how often `next_question` / `submit_answer` ran. -/
theorem question_ids_strictly_increasing (maxQuestions : Nat) (ops : List Op)
    (sid : String) (s : InterviewSession)
    (hs : storeGet (runOps (initState maxQuestions) ops).sessions sid = some s) :
    (∀ (i : Nat) (hi : i < s.questions.length), (s.questions.get ⟨i, hi⟩).id = i) ∧
    (∀ (i j : Nat) (hi : i < s.questions.length) (hj : j < s.questions.length),
      i < j → (s.questions.get ⟨i, hi⟩).id < (s.questions.get ⟨j, hj⟩).id) := by
  obtain ⟨-, -, -, i4, -, -⟩ := managerInv_runOps maxQuestions ops sid s hs
  have key : ∀ (i : Nat) (hi : i < s.questions.length),
      (s.questions.get ⟨i, hi⟩).id = i := by
    intro i hi
    have h1 : (s.questions.map Question.id).get? i =
        some ((s.questions.get ⟨i, hi⟩).id) := by
      rw [List.get?_map, List.get?_eq_get hi]
      rfl
    rw [i4, List.get?_range hi] at h1
    exact (Option.some.inj h1).symm
  refine ⟨key, fun i j hi hj hij => ?_⟩
  rw [key i hi, key j hj]
  exact hij

/-- C7 witness: in the session built by one `start_interview` and two
`next_question` calls, question 1 has id 1 and the ids of questions 0 and 2
are strictly increasing. -/
theorem question_ids_strictly_increasing_witness :
    (idsSession.questions.get ⟨1, by decide⟩).id = 1 ∧
    (idsSession.questions.get ⟨0, by decide⟩).id <
      (idsSession.questions.get ⟨2, by decide⟩).id :=
  ⟨(question_ids_strictly_increasing 10 idsOps "t" idsSession (by decide)).1 1
      (by decide),
   (question_ids_strictly_increasing 10 idsOps "t" idsSession (by decide)).2 0 2
      (by decide) (by decide) (by decide)⟩

/-- C5: session state only moves forward along
`not_started → in_progress → completed`.  (1) Under the uuid-freshness
assumption on generated session ids, no operation lowers the rank of a
stored session's state; (2) a session appearing in the store is created
directly in `in_progress` (so no stored session is ever observed in
`not_started`, and `completed` is never the creation state); (3) on every
trace from a fresh manager, a session observed `completed` was observed
`in_progress` after some earlier prefix — `completed` is never reached
without passing through `in_progress`. -/
theorem session_state_forward_only :
    (∀ (m : ManagerState) (op : Op) (sid : String) (s s2 : InterviewSession),
        opFresh m op → storeGet m.sessions sid = some s →
        storeGet (applyOp m op).sessions sid = some s2 →
        rank s.state ≤ rank s2.state) ∧
    (∀ (m : ManagerState) (op : Op) (sid : String) (s2 : InterviewSession),
        storeGet m.sessions sid = none →
        storeGet (applyOp m op).sessions sid = some s2 →
        s2.state = SState.in_progress) ∧
    (∀ (maxQuestions : Nat) (ops : List Op) (sid : String) (s : InterviewSession),
        storeGet (runOps (initState maxQuestions) ops).sessions sid = some s →
        s.state = SState.completed →
        ∃ (k : Nat) (s2 : InterviewSession), k ≤ ops.length ∧
          storeGet (runOps (initState maxQuestions) (ops.take k)).sessions sid =
            some s2 ∧
          s2.state = SState.in_progress) :=
  ⟨fun m op sid s s2 hf hs hs2 => stateRank_step_mono m op sid hf s s2 hs hs2,
   fun m op sid s2 hn hs2 => stateNew_in_progress m op sid hn s2 hs2,
   fun maxQuestions ops sid s hs hc =>
     completed_passes_in_progress maxQuestions sid ops s hs hc⟩

/-- C5 witness: (1) the completing submission moves `in_progress` to
`completed` (rank increases); (2) a `start_interview` on a fresh id stores
an `in_progress` session; (3) on the two-operation completing trace, the
prefix of length 1 shows the session `in_progress`. -/
theorem session_state_forward_only_witness :
    (rank oneQuestionSession.state ≤ rank answeredSession.state) ∧
    wSession.state = SState.in_progress ∧
    (∃ (k : Nat) (s2 : InterviewSession), k ≤ completeOps.length ∧
      storeGet (runOps (initState 1) (completeOps.take k)).sessions "s" = some s2 ∧
      s2.state = SState.in_progress) :=
  ⟨session_state_forward_only.1 oneQuestionMgr1
      (Op.submit "s" 0 "ans" { score := 5, feedback := "fb" } "Q1") "s"
      oneQuestionSession answeredSession trivial (by decide) (by decide),
   session_state_forward_only.2.1 (initState 1) (Op.start "w" "rr" "dd" ["a"] "Q0")
      "w" wSession (by decide) (by decide),
   session_state_forward_only.2.2 1 completeOps "s" completeSession (by decide)
      (by decide)⟩

/-- C3: on a `submit_answer` that brings the answer count to
`MAX_QUESTIONS` (or beyond), the payload has `is_complete = true` and no
`next_question` / `next_question_id` fields, the session is marked
`completed` with a completion timestamp, and no new question is appended;
on a submission that leaves the count below `MAX_QUESTIONS`,
`is_complete = false` and a `next_question` with its id is returned (one
question is appended). -/
theorem submit_answer_completion_boundary (m : ManagerState) (sid : String)
    (qid : Nat) (ans : String) (fb : FeedbackResult) (nextQText : String)
    (s : InterviewSession) (qd : Question)
    (hs : storeGet m.sessions sid = some s)
    (hq : s.questions.find? (fun q => q.id == qid) = some qd) :
    (m.maxQuestions ≤ s.answers.length + 1 →
      ∃ (r : SubmitResult) (s2 : InterviewSession),
        (submit_answer m sid qid ans fb nextQText).2 = Except.ok r ∧
        r.is_complete = true ∧ r.next_question = none ∧ r.next_question_id = none ∧
        r.feedback = fb.feedback ∧ r.score = fb.score ∧
        storeGet (submit_answer m sid qid ans fb nextQText).1.sessions sid =
          some s2 ∧
        s2.state = SState.completed ∧ s2.completed_at = some m.clock ∧
        s2.questions = s.questions ∧
        s2.answers.length = s.answers.length + 1) ∧
    (s.answers.length + 1 < m.maxQuestions →
      ∃ (r : SubmitResult) (s2 : InterviewSession),
        (submit_answer m sid qid ans fb nextQText).2 = Except.ok r ∧
        r.is_complete = false ∧ r.next_question = some nextQText ∧
        r.next_question_id = some s.current_question_id ∧
        r.feedback = fb.feedback ∧ r.score = fb.score ∧
        storeGet (submit_answer m sid qid ans fb nextQText).1.sessions sid =
          some s2 ∧
        s2.state = s.state ∧ s2.completed_at = s.completed_at ∧
        s2.questions.length = s.questions.length + 1 ∧
        s2.answers.length = s.answers.length + 1) := by
  constructor
  · intro hcomp
    have hc : is_complete (add_answer s qid ans fb.feedback fb.score m.clock)
        m.maxQuestions = true := by
      simp only [is_complete, add_answer, List.length_append, List.length_cons,
        List.length_nil, decide_eq_true_eq]
      omega
    simp only [submit_answer, hs, hq, hc, if_true]
    refine ⟨_, _, rfl, rfl, rfl, rfl, rfl, rfl, storeGet_storeSet_self _ _ _,
      ?_, ?_, ?_, ?_⟩
    · simp [mark_complete]
    · simp [mark_complete]
    · simp [mark_complete, add_answer]
    · simp [mark_complete, add_answer]
  · intro hlt
    have hc : is_complete (add_answer s qid ans fb.feedback fb.score m.clock)
        m.maxQuestions = false := by
      simp only [is_complete, add_answer, List.length_append, List.length_cons,
        List.length_nil]
      apply decide_eq_false
      omega
    simp only [submit_answer, hs, hq, hc, Bool.false_eq_true, if_false,
      next_question_op, storeGet_storeSet_self, storeSet_storeSet_self]
    refine ⟨_, _, rfl, rfl, rfl, ?_, rfl, rfl, rfl, ?_, ?_, ?_, ?_⟩
    · simp [add_question, add_answer]
    · simp [add_question, add_answer]
    · simp [add_question, add_answer]
    · simp [add_question, add_answer]
    · simp [add_question, add_answer]

/-- C3 witness: with one unanswered question in store, submitting under
`MAX_QUESTIONS = 1` completes (first implication, antecedent `1 ≤ 1`), and
under `MAX_QUESTIONS = 2` returns the next question (second implication,
antecedent `1 < 2`). -/
theorem submit_answer_completion_boundary_witness :
    (∃ (r : SubmitResult) (s2 : InterviewSession),
      (submit_answer oneQuestionMgr1 "s" 0 "ans" { score := 5, feedback := "fb" }
        "Q1").2 = Except.ok r ∧
      r.is_complete = true ∧ r.next_question = none ∧ r.next_question_id = none ∧
      r.feedback = ({ score := 5, feedback := "fb" } : FeedbackResult).feedback ∧
      r.score = ({ score := 5, feedback := "fb" } : FeedbackResult).score ∧
      storeGet (submit_answer oneQuestionMgr1 "s" 0 "ans"
        { score := 5, feedback := "fb" } "Q1").1.sessions "s" = some s2 ∧
      s2.state = SState.completed ∧ s2.completed_at = some oneQuestionMgr1.clock ∧
      s2.questions = oneQuestionSession.questions ∧
      s2.answers.length = oneQuestionSession.answers.length + 1) ∧
    (∃ (r : SubmitResult) (s2 : InterviewSession),
      (submit_answer oneQuestionMgr2 "s" 0 "ans" { score := 5, feedback := "fb" }
        "Q1").2 = Except.ok r ∧
      r.is_complete = false ∧ r.next_question = some "Q1" ∧
      r.next_question_id = some oneQuestionSession.current_question_id ∧
      r.feedback = ({ score := 5, feedback := "fb" } : FeedbackResult).feedback ∧
      r.score = ({ score := 5, feedback := "fb" } : FeedbackResult).score ∧
      storeGet (submit_answer oneQuestionMgr2 "s" 0 "ans"
        { score := 5, feedback := "fb" } "Q1").1.sessions "s" = some s2 ∧
      s2.state = oneQuestionSession.state ∧
      s2.completed_at = oneQuestionSession.completed_at ∧
      s2.questions.length = oneQuestionSession.questions.length + 1 ∧
      s2.answers.length = oneQuestionSession.answers.length + 1) :=
  ⟨(submit_answer_completion_boundary oneQuestionMgr1 "s" 0 "ans"
      { score := 5, feedback := "fb" } "Q1" oneQuestionSession
      { id := 0, question := "Q0", topic := "a" } (by decide) (by decide)).1
      (by decide),
   (submit_answer_completion_boundary oneQuestionMgr2 "s" 0 "ans"
      { score := 5, feedback := "fb" } "Q1" oneQuestionSession
      { id := 0, question := "Q0", topic := "a" } (by decide) (by decide)).2
      (by decide)⟩

/-- C4: submitting an answer for a `question_id` that does not occur in the
session's questions list fails with the question-not-found error and
returns the manager state unchanged — no answer, score, cursor, question or
state mutation. -/
theorem submit_answer_unknown_question_rejected (m : ManagerState) (sid : String)
    (qid : Nat) (ans : String) (fb : FeedbackResult) (nextQText : String)
    (s : InterviewSession)
    (hs : storeGet m.sessions sid = some s)
    (hq : ∀ q ∈ s.questions, q.id ≠ qid) :
    submit_answer m sid qid ans fb nextQText =
      (m, Except.error (IErr.questionNotFound qid)) := by
  have hfind : s.questions.find? (fun q => q.id == qid) = none := by
    rw [List.find?_eq_none]
    intro q hqmem
    simpa using hq q hqmem
  simp [submit_answer, hs, hfind]

/-- C4 witness: submitting for the never-issued id 7 on a session that only
holds question 0 is rejected and leaves the whole manager unchanged. -/
theorem submit_answer_unknown_question_rejected_witness :
    submit_answer oneQuestionMgr1 "s" 7 "ans" { score := 5, feedback := "fb" }
        "Q1" =
      (oneQuestionMgr1, Except.error (IErr.questionNotFound 7)) :=
  submit_answer_unknown_question_rejected oneQuestionMgr1 "s" 7 "ans"
    { score := 5, feedback := "fb" } "Q1" oneQuestionSession (by decide)
    (by decide)

/-- C10: `submit_answer` never checks the session's state.  On a session
that is already complete (`MAX_QUESTIONS ≤ len(answers)`), submitting an
answer for any existing `question_id` is still accepted: it appends another
answer (`len(answers)` exceeds `MAX_QUESTIONS`), re-marks the session
complete (writing the current clock over `completed_at`), and the progress
now reports negative `remaining_questions` and a `progress_percentage`
above 100. -/
theorem submit_after_completion_accepted (m : ManagerState) (sid : String)
    (qid : Nat) (ans : String) (fb : FeedbackResult) (nextQText : String)
    (s : InterviewSession) (qd : Question)
    (hs : storeGet m.sessions sid = some s)
    (hq : s.questions.find? (fun q => q.id == qid) = some qd)
    (hdone : m.maxQuestions ≤ s.answers.length)
    (hpos : 0 < m.maxQuestions) :
    ∃ (r : SubmitResult) (s2 : InterviewSession),
      (submit_answer m sid qid ans fb nextQText).2 = Except.ok r ∧
      r.is_complete = true ∧
      storeGet (submit_answer m sid qid ans fb nextQText).1.sessions sid =
        some s2 ∧
      s2.answers.length = s.answers.length + 1 ∧
      m.maxQuestions < s2.answers.length ∧
      s2.state = SState.completed ∧
      s2.completed_at = some m.clock ∧
      (get_progress s2 m.maxQuestions).remaining_questions < 0 ∧
      100 < (get_progress s2 m.maxQuestions).progress_percentage := by
  have hc : is_complete (add_answer s qid ans fb.feedback fb.score m.clock)
      m.maxQuestions = true := by
    simp only [is_complete, add_answer, List.length_append, List.length_cons,
      List.length_nil, decide_eq_true_eq]
    omega
  simp only [submit_answer, hs, hq, hc, if_true]
  refine ⟨_, _, rfl, rfl, storeGet_storeSet_self _ _ _, ?_, ?_, ?_, ?_, ?_, ?_⟩
  · simp [mark_complete, add_answer]
  · simp only [mark_complete, add_answer, List.length_append, List.length_cons,
      List.length_nil]
    omega
  · simp [mark_complete]
  · simp [mark_complete]
  · simp only [get_progress, mark_complete, add_answer, List.length_append,
      List.length_cons, List.length_nil]
    push_cast
    omega
  · simp only [get_progress, mark_complete, add_answer, List.length_append,
      List.length_cons, List.length_nil]
    have hq0 : (0 : ℚ) < (m.maxQuestions : ℚ) := by exact_mod_cast hpos
    have hlt : (m.maxQuestions : ℚ) < ((s.answers.length + 1 : Nat) : ℚ) := by
      exact_mod_cast Nat.lt_succ_of_le hdone
    have h1 : (1 : ℚ) < ((s.answers.length + 1 : Nat) : ℚ) / (m.maxQuestions : ℚ) :=
      (one_lt_div hq0).mpr hlt
    have h2 := mul_lt_mul_of_pos_right h1 (show (0 : ℚ) < 100 by norm_num)
    rw [one_mul] at h2
    exact h2

/-- C10 witness: on the completed session (`MAX_QUESTIONS = 1`, one answer
recorded) a further submission for question 0 is accepted, bringing
`len(answers)` to 2 with remaining `-1` and 200% progress. -/
theorem submit_after_completion_accepted_witness :
    ∃ (r : SubmitResult) (s2 : InterviewSession),
      (submit_answer completedMgr "c" 0 "again" { score := 7, feedback := "fb2" }
        "QX").2 = Except.ok r ∧
      r.is_complete = true ∧
      storeGet (submit_answer completedMgr "c" 0 "again"
        { score := 7, feedback := "fb2" } "QX").1.sessions "c" = some s2 ∧
      s2.answers.length = completedSession.answers.length + 1 ∧
      completedMgr.maxQuestions < s2.answers.length ∧
      s2.state = SState.completed ∧
      s2.completed_at = some completedMgr.clock ∧
      (get_progress s2 completedMgr.maxQuestions).remaining_questions < 0 ∧
      100 < (get_progress s2 completedMgr.maxQuestions).progress_percentage :=
  submit_after_completion_accepted completedMgr "c" 0 "again"
    { score := 7, feedback := "fb2" } "QX" completedSession
    { id := 0, question := "Q0", topic := "a" } (by decide) (by decide) (by decide)
    (by decide)

/-- C8 counterexample: the collaborator reply
`\x7b"feedback": "Good answer"\x7d` parses as JSON and contains no
recognized score field, yet `generate_feedback` returns the parsed
`feedback` field (`"Good answer"`), not the raw response text — refuting
the claim that in this case the raw text is returned as feedback. -/
theorem feedback_no_score_field_uses_parsed_feedback :
    generate_feedback "\x7b\"feedback\": \"Good answer\"\x7d"
        (some (JVal.jobj [("feedback", JVal.jstr "Good answer")])) =
      { score := 5, feedback := "Good answer" } ∧
    ("Good answer" : String) ≠ "\x7b\"feedback\": \"Good answer\"\x7d" :=
  ⟨by decide, by decide⟩

/-- C8 (amended): an unparseable reply degrades to the neutral default —
score 5.0 with the (cleaned) raw text as feedback — instead of propagating
a parse exception; a reply that parses to an object without a recognized
score field (`"score"`, or a `"scores"` dict) also gets score 5.0, but its
feedback is the parsed `feedback` / `detailed_feedback` field when present
and non-empty, falling back to the raw text only when both are absent or
the value is empty. -/
theorem feedback_fallback_behaviour :
    (∀ content : String,
      generate_feedback content none =
        { score := 5, feedback := clean_raw (pyStrip content) }) ∧
    (∀ (content : String) (fields : List (String × JVal)),
      lookupJ fields "score" = none →
      (∀ v, lookupJ fields "scores" = some v → v.isObj = false) →
      (generate_feedback content (some (JVal.jobj fields))).score = 5 ∧
      (generate_feedback content (some (JVal.jobj fields))).feedback =
        (match extract_feedback fields with
         | some f => if f = "" then clean_raw (pyStrip content) else f
         | none => clean_raw (pyStrip content))) := by
  constructor
  · intro content
    rfl
  · intro content fields hscore hscores
    have hesc : extract_score fields = some none := by
      rcases hv : lookupJ fields "scores" with _ | v
      · simp [extract_score, hscore, hv]
      · cases v with
        | jnum q => simp [extract_score, hscore, hv]
        | jstr s2 => simp [extract_score, hscore, hv]
        | jbool b => simp [extract_score, hscore, hv]
        | jnull => simp [extract_score, hscore, hv]
        | jarr elems => simp [extract_score, hscore, hv]
        | jobj f2 =>
          have := hscores _ hv
          simp [JVal.isObj] at this
    constructor
    · simp [generate_feedback, hesc]
    · simp [generate_feedback, hesc]

/-- C8 witness: the fallback behaviour instantiated on an unparseable reply
`"oops"` and on a parsed object carrying only `detailed_feedback`. -/
theorem feedback_fallback_behaviour_witness :
    (generate_feedback "oops" none =
      { score := 5, feedback := clean_raw (pyStrip "oops") }) ∧
    ((generate_feedback "x"
        (some (JVal.jobj [("detailed_feedback", JVal.jstr "ok")]))).score = 5 ∧
     (generate_feedback "x"
        (some (JVal.jobj [("detailed_feedback", JVal.jstr "ok")]))).feedback =
       (match extract_feedback [("detailed_feedback", JVal.jstr "ok")] with
        | some f => if f = "" then clean_raw (pyStrip "x") else f
        | none => clean_raw (pyStrip "x"))) :=
  ⟨feedback_fallback_behaviour.1 "oops",
   feedback_fallback_behaviour.2 "x" [("detailed_feedback", JVal.jstr "ok")] rfl
     (fun v hv => by simp [lookupJ] at hv)⟩

/-- C9: in every generated summary, `strongest_topic` is the argmax and
`weakest_topic` the argmin of the per-topic average scores (answers grouped
by the topic of the question at the same positional index), ties broken by
first-seen insertion order: the strongest is the first listed topic whose
average is maximal (all earlier ones strictly smaller, all later ones no
larger), dually for the weakest; the reported scores are the rounded
averages and `topic_performance` lists the (re-rounded) averages. -/
theorem summary_strongest_weakest_argmax_argmin (m : ManagerState) (sid : String)
    (s : InterviewSession)
    (hs : storeGet m.sessions sid = some s)
    (hne : topic_averages_of s.questions s.answers ≠ []) :
    ∃ su, generate_summary m sid = Except.ok su ∧
      su.topic_performance =
        (topic_averages_of s.questions s.answers).map
          (fun p => (p.1, pyRound2 p.2)) ∧
      (∃ v, FirstMax (topic_averages_of s.questions s.answers)
          (su.strongest_topic, v) ∧ su.strongest_topic_score = pyRound2 v) ∧
      (∃ w, FirstMin (topic_averages_of s.questions s.answers)
          (su.weakest_topic, w) ∧ su.weakest_topic_score = pyRound2 w) := by
  obtain ⟨p, hmax⟩ : ∃ p, pyMaxBy (topic_averages_of s.questions s.answers) =
      some p := by
    rcases hl : topic_averages_of s.questions s.answers with _ | ⟨x, xs⟩
    · exact absurd hl hne
    · exact ⟨maxFold x xs, rfl⟩
  obtain ⟨q, hmin⟩ : ∃ q, pyMinBy (topic_averages_of s.questions s.answers) =
      some q := by
    rcases hl : topic_averages_of s.questions s.answers with _ | ⟨x, xs⟩
    · exact absurd hl hne
    · exact ⟨minFold x xs, rfl⟩
  simp only [generate_summary, hs]
  refine ⟨_, rfl, ?_, ?_, ?_⟩
  · simp only [format_interview_summary]
  · refine ⟨p.2, ?_, ?_⟩
    · have h := pyMaxBy_firstMax _ _ hmax
      simp only [format_interview_summary]
      rw [hmax]
      simpa using h
    · simp only [format_interview_summary]
      rw [hmax]
      simp
  · refine ⟨q.2, ?_, ?_⟩
    · have h := pyMinBy_firstMin _ _ hmin
      simp only [format_interview_summary]
      rw [hmin]
      simpa using h
    · simp only [format_interview_summary]
      rw [hmin]
      simp

/-- C9 witness: the spec's example — per-topic scores
`algo ↦ [8, 10]`, `db ↦ [4]` give averages `algo ↦ 9.0`, `db ↦ 4.0`; the
summary of `summarySession` then has strongest topic `algo` and weakest
topic `db` per the argmax/argmin characterization. -/
theorem summary_strongest_weakest_argmax_argmin_witness :
    topic_averages_of summarySession.questions summarySession.answers =
      [("algo", 9), ("db", 4)] ∧
    (∃ su, generate_summary summaryMgr "s9" = Except.ok su ∧
      su.topic_performance =
        (topic_averages_of summarySession.questions summarySession.answers).map
          (fun p => (p.1, pyRound2 p.2)) ∧
      (∃ v, FirstMax (topic_averages_of summarySession.questions
          summarySession.answers) (su.strongest_topic, v) ∧
        su.strongest_topic_score = pyRound2 v) ∧
      (∃ w, FirstMin (topic_averages_of summarySession.questions
          summarySession.answers) (su.weakest_topic, w) ∧
        su.weakest_topic_score = pyRound2 w)) := by
  have hns : ("algo" : String) ≠ "db" := by decide
  have h1 : topic_scores_of summarySession.questions summarySession.answers =
      [("algo", [8, 10]), ("db", [4])] := by
    norm_num [topic_scores_of, topic_scores_aux, topic_scores_add, summarySession,
      hns]
  have h2 : topic_averages_of summarySession.questions summarySession.answers =
      [("algo", 9), ("db", 4)] := by
    simp only [topic_averages_of, h1, List.map_cons, List.map_nil]
    norm_num [calculate_average_score, pyRound2, roundHalfEven]
  exact ⟨h2, summary_strongest_weakest_argmax_argmin summaryMgr "s9"
    summarySession (by decide) (by rw [h2]; simp)⟩
